import Mathlib

/-!
Verification of the xomify-backend release-radar engine.

Shallow embedding notes
=======================
* Python `date`/`datetime` values are modelled by their proleptic-Gregorian
  ordinal (`date.toordinal`, an `Int`, day 1 = 0001-01-01) together with the
  microsecond-of-day for `datetime` instants (`Instant`).  Python integer
  division/modulo are floor operations; for the positive divisors used here
  they coincide with Lean's `Int` `/` and `%` (Euclidean).
* A Python `datetime` carries its calendar year; since we model a datetime by
  its ordinal, functions that read `.year` (only `isocalendar`) receive the
  year as an extra argument, constrained by `isYearOf` hypotheses.
* Python strings are modelled as `List Char`; `str[:10]` is `List.take 10`.
* `try/except` is modelled by `Except`/`Option` values: an expression that can
  raise returns `Except ε α`, and the handler branch is an explicit `match`.
-/

namespace Xomify

/-- Python strings are modelled as `List Char`. -/
def str (s : String) : List Char := s.toList

/-! ## Calendar arithmetic (release_radar_dynamo.py)

`jan1 y` is `date(y, 1, 1).toordinal()`: CPython computes
`_days_before_year(y) = 365*(y-1) + (y-1)//4 - (y-1)//100 + (y-1)//400`
and the ordinal of Jan 1 is that plus 1. -/
def jan1 (y : Int) : Int :=
  1 + 365 * (y - 1) + (y - 1) / 4 - (y - 1) / 100 + (y - 1) / 400

/-- `date.weekday()` for the day with ordinal `o` (Mon = 0 … Sun = 6).
Ordinal 1 (0001-01-01) is a Monday. -/
def pyWeekday (o : Int) : Int := (o + 6) % 7

/-- CPython `_isoweek1monday(year)`: ordinal of the Monday starting ISO week 1
of `year`. -/
def isoweek1monday (y : Int) : Int :=
  if 3 < (jan1 y + 6) % 7 then jan1 y - (jan1 y + 6) % 7 + 7
  else jan1 y - (jan1 y + 6) % 7

/-- CPython `date.isocalendar()` restricted to the (iso-year, iso-week) pair,
for the date with ordinal `T` whose calendar year is `y`. -/
def isocalendarYW (y T : Int) : Int × Int :=
  if (T - isoweek1monday y) / 7 < 0 then
    (y - 1, (T - isoweek1monday (y - 1)) / 7 + 1)
  else if 52 ≤ (T - isoweek1monday y) / 7 ∧ isoweek1monday (y + 1) ≤ T then
    (y + 1, 1)
  else
    (y, (T - isoweek1monday y) / 7 + 1)

/-- `y` is the calendar year of the day with ordinal `o`. -/
def isYearOf (y o : Int) : Prop := jan1 y ≤ o ∧ o < jan1 (y + 1)

instance (y o : Int) : Decidable (isYearOf y o) :=
  inferInstanceAs (Decidable (jan1 y ≤ o ∧ o < jan1 (y + 1)))

/-- The calendar year of ordinal `T`, computed from the year `y` of a nearby
ordinal (at most one year boundary away).  This models how Python datetime
arithmetic (`d ± timedelta(days ≤ 6)`) tracks the `.year` attribute. -/
def yearOfNear (y T : Int) : Int :=
  if T < jan1 y then y - 1 else if jan1 (y + 1) ≤ T then y + 1 else y

/-- `get_week_key` (release_radar_dynamo.py lines 49-81) on the date with
ordinal `o` and calendar year `y`.  The Python function formats the result as
`f"{iso_year}-{iso_week:02d}"`; `get_week_date_range` parses that string back
with `map(int, week_key.split('-'))`, a round trip for the years in range, so
the key is modelled as the `(iso_year, iso_week)` pair. -/
def get_week_key (o y : Int) : Int × Int :=
  -- days_since_sunday = (d.weekday() + 1) % 7 ; week_start_sunday = d - that
  -- thursday_of_week = week_start_sunday + 4
  isocalendarYW
    (yearOfNear y (o - (pyWeekday o + 1) % 7 + 4))
    (o - (pyWeekday o + 1) % 7 + 4)

/-- A Python `datetime` instant: day ordinal plus microsecond of day. -/
structure Instant where
  ord : Int
  usec : Int
  deriving DecidableEq, Repr

/-- `datetime` comparison `a <= b`. -/
def Instant.le (a b : Instant) : Bool :=
  a.ord < b.ord || (a.ord == b.ord && a.usec ≤ b.usec)

/-- `get_week_date_range` (release_radar_dynamo.py lines 99-126): the
Sunday-00:00:00 .. Saturday-23:59:59.999999 window of a week key. -/
def get_week_date_range (k : Int × Int) : Instant × Instant :=
  -- jan_4 = datetime(year, 1, 4); start_of_week_1 = jan_4 - jan_4.weekday()
  -- monday_of_week = start_of_week_1 + 7*(week-1); sunday = monday - 1
  (⟨jan1 k.1 + 3 - pyWeekday (jan1 k.1 + 3) + 7 * (k.2 - 1) - 1, 0⟩,
   ⟨jan1 k.1 + 3 - pyWeekday (jan1 k.1 + 3) + 7 * (k.2 - 1) - 1 + 6, 86399999999⟩)

/-! ### Calendar lemmas -/

theorem jan1_gap (y : Int) : 365 ≤ jan1 (y + 1) - jan1 y ∧ jan1 (y + 1) - jan1 y ≤ 366 := by
  unfold jan1
  omega

theorem jan1_mono {a b : Int} (h : a ≤ b) : jan1 a ≤ jan1 b := by
  have key : ∀ n : Nat, jan1 a ≤ jan1 (a + n) := by
    intro n
    induction n with
    | zero => simp
    | succ m ih =>
      have := jan1_gap (a + m)
      have : jan1 (a + m) ≤ jan1 (a + m + 1) := by omega
      calc jan1 a ≤ jan1 (a + m) := ih
        _ ≤ jan1 (a + m + 1) := this
        _ = jan1 (a + (m + 1 : Nat)) := by push_cast; ring_nf
  have hn : b = a + ((b - a).toNat : Int) := by omega
  rw [hn]
  exact key _

theorem jan1_strict_mono {a b : Int} (h : a < b) : jan1 a < jan1 b := by
  have h1 : jan1 (a + 1) ≤ jan1 b := jan1_mono (by omega)
  have h2 := jan1_gap a
  omega

theorem isYearOf_unique {a b o : Int} (ha : isYearOf a o) (hb : isYearOf b o) : a = b := by
  rcases ha with ⟨ha1, ha2⟩
  rcases hb with ⟨hb1, hb2⟩
  by_contra hne
  rcases lt_or_gt_of_ne hne with h | h
  · have := jan1_mono (show a + 1 ≤ b by omega)
    omega
  · have := jan1_mono (show b + 1 ≤ a by omega)
    omega

theorem yearOfNear_isYearOf {y o T : Int} (hy : isYearOf y o)
    (hlo : o - 6 ≤ T) (hhi : T ≤ o + 6) : isYearOf (yearOfNear y T) T := by
  rcases hy with ⟨h1, h2⟩
  have g0 := jan1_gap (y - 1)
  have g1 := jan1_gap y
  have g2 := jan1_gap (y + 1)
  have e1 : jan1 (y - 1 + 1) = jan1 y := by norm_num
  rw [e1] at g0
  unfold yearOfNear isYearOf
  split
  · constructor <;> omega
  · split
    · constructor <;> omega
    · constructor <;> omega

/-- `isoweek1monday y` is a Monday (ordinal ≡ 1 mod 7) within 3 days of Jan 1. -/
theorem isoweek1monday_spec (y : Int) :
    isoweek1monday y % 7 = 1 ∧ jan1 y - 3 ≤ isoweek1monday y ∧ isoweek1monday y ≤ jan1 y + 3 := by
  unfold isoweek1monday
  split <;> omega

/-- The Monday reconstructed by `get_week_date_range` from a week key equals
`isoweek1monday` of the key's year, plus whole weeks. -/
theorem jan4_monday (y : Int) :
    jan1 y + 3 - pyWeekday (jan1 y + 3) = isoweek1monday y := by
  unfold pyWeekday isoweek1monday
  split <;> omega

/-- Core inversion: for a date `T` in calendar year `y`, the Monday rebuilt from
`isocalendarYW y T` is the Monday of the ISO week containing `T`. -/
theorem isocalendar_monday {y T : Int} (hy : isYearOf y T) :
    isoweek1monday (isocalendarYW y T).1 + 7 * ((isocalendarYW y T).2 - 1)
      = T - pyWeekday T := by
  rcases hy with ⟨h1, h2⟩
  have w0 := isoweek1monday_spec (y - 1)
  have w1 := isoweek1monday_spec y
  have w2 := isoweek1monday_spec (y + 1)
  unfold isocalendarYW pyWeekday
  split
  · simp only
    omega
  · split
    · simp only
      omega
    · simp only
      omega

/-- The expression `o - (d.weekday() + 1) % 7` (the Sunday starting `o`'s
Sunday-to-Saturday week) is a multiple of 7 at most 6 days before `o`. -/
theorem sundayStart_spec (o : Int) :
    (o - (pyWeekday o + 1) % 7) % 7 = 0 ∧
      o - 6 ≤ o - (pyWeekday o + 1) % 7 ∧ o - (pyWeekday o + 1) % 7 ≤ o := by
  unfold pyWeekday
  omega

/-- All seven days of a Sunday-start week share the same week-start Sunday. -/
theorem sundayStart_const {S d : Int} (h0 : S % 7 = 0) (h1 : S ≤ d) (h2 : d ≤ S + 6) :
    d - (pyWeekday d + 1) % 7 = S := by
  unfold pyWeekday
  omega

/-- C3: composing `get_week_key` with `get_week_date_range` is a round trip:
with `k = get_week_key(d)` and `(start, end) = get_week_date_range(k)`,
`get_week_key(d') = k` for every date `d'` with `start ≤ d' ≤ end` (in
particular for `d' = start`, stated as the second conjunct with the start
date's calendar year provided by an existential). -/
theorem week_key_window_roundtrip (o y d' y' : Int)
    (hy : isYearOf y o) (hy' : isYearOf y' d')
    (hlo : (get_week_date_range (get_week_key o y)).1.ord ≤ d')
    (hhi : d' ≤ (get_week_date_range (get_week_key o y)).2.ord) :
    get_week_key d' y' = get_week_key o y ∧
      ∃ ys, isYearOf ys (get_week_date_range (get_week_key o y)).1.ord ∧
        get_week_key (get_week_date_range (get_week_key o y)).1.ord ys = get_week_key o y := by
  obtain ⟨hS7, hSlo, hShi⟩ := sundayStart_spec o
  have hyT : isYearOf (yearOfNear y (o - (pyWeekday o + 1) % 7 + 4))
      (o - (pyWeekday o + 1) % 7 + 4) :=
    yearOfNear_isYearOf hy (by omega) (by omega)
  have hmon := isocalendar_monday hyT
  have hpw : pyWeekday (o - (pyWeekday o + 1) % 7 + 4) = 3 := by
    unfold pyWeekday
    unfold pyWeekday at hS7
    omega
  rw [hpw] at hmon
  have hstart : (get_week_date_range (get_week_key o y)).1.ord
      = o - (pyWeekday o + 1) % 7 := by
    show jan1 (get_week_key o y).1 + 3 - pyWeekday (jan1 (get_week_key o y).1 + 3)
        + 7 * ((get_week_key o y).2 - 1) - 1 = _
    rw [jan4_monday]
    unfold get_week_key
    omega
  have hend : (get_week_date_range (get_week_key o y)).2.ord
      = o - (pyWeekday o + 1) % 7 + 6 := by
    show jan1 (get_week_key o y).1 + 3 - pyWeekday (jan1 (get_week_key o y).1 + 3)
        + 7 * ((get_week_key o y).2 - 1) - 1 + 6 = _
    rw [jan4_monday]
    unfold get_week_key
    omega
  rw [hstart] at hlo
  rw [hend] at hhi
  have main : ∀ e ye, isYearOf ye e → o - (pyWeekday o + 1) % 7 ≤ e →
      e ≤ o - (pyWeekday o + 1) % 7 + 6 → get_week_key e ye = get_week_key o y := by
    intro e ye hye helo hehi
    have hcs : e - (pyWeekday e + 1) % 7 = o - (pyWeekday o + 1) % 7 :=
      sundayStart_const hS7 helo hehi
    unfold get_week_key
    rw [hcs]
    have hyT' : isYearOf (yearOfNear ye (o - (pyWeekday o + 1) % 7 + 4))
        (o - (pyWeekday o + 1) % 7 + 4) :=
      yearOfNear_isYearOf hye (by omega) (by omega)
    rw [isYearOf_unique hyT' hyT]
  refine ⟨main d' y' hy' hlo hhi, ?_⟩
  refine ⟨yearOfNear y (o - (pyWeekday o + 1) % 7), ?_, ?_⟩
  · rw [hstart]
    exact yearOfNear_isYearOf hy (by omega) (by omega)
  · rw [hstart]
    exact main _ _ (yearOfNear_isYearOf hy (by omega) (by omega)) (by omega) (by omega)

/-- Witness for C3 at a concrete date: ordinal 739000 lies in calendar year
2024, the window of its week key is computed, and the round trip holds at the
window's last day 739003 (also year 2024). -/
theorem week_key_window_roundtrip_witness :
    isYearOf 2024 739000 ∧ isYearOf 2024 739003 ∧
      (get_week_date_range (get_week_key 739000 2024)).1.ord ≤ 739003 ∧
      739003 ≤ (get_week_date_range (get_week_key 739000 2024)).2.ord ∧
      get_week_key 739003 2024 = get_week_key 739000 2024 :=
  ⟨by decide, by decide, by decide, by decide,
    (week_key_window_roundtrip 739000 2024 739003 2024
      (by decide) (by decide) (by decide) (by decide)).1⟩

/-- C7: for every week key, `get_week_date_range` returns a window starting at
00:00:00 (microsecond 0) of a Sunday (the configured start weekday) and ending
at 23:59:59.999999 of the day exactly six days later. -/
theorem get_week_date_range_span (k : Int × Int) :
    (get_week_date_range k).1.usec = 0 ∧
      (get_week_date_range k).2.ord = (get_week_date_range k).1.ord + 6 ∧
      (get_week_date_range k).2.usec = 86399999999 ∧
      pyWeekday (get_week_date_range k).1.ord = 6 := by
  refine ⟨rfl, rfl, rfl, ?_⟩
  show pyWeekday (jan1 k.1 + 3 - pyWeekday (jan1 k.1 + 3) + 7 * (k.2 - 1) - 1) = 6
  unfold pyWeekday
  omega

/-! ## Release-date string parsing

CPython `datetime.strptime` compiles the format to a regex
(`Lib/_strptime.py`): `%Y` is `\d\d\d\d` (exactly four digits), `%m` is
`1[0-2]|0[1-9]|[1-9]`, `%d` is `3[01]|[12]\d|0[1-9]|[1-9]`, a literal `-`
matches itself, the match is anchored at the start, and any unconsumed tail
raises `ValueError` ("unconverted data").  Alternatives are tried in regex
order with backtracking.  After the regex matches, the `datetime` constructor
validates `MINYEAR 1 ≤ year ≤ 9999` and `day ≤ days_in_month`, raising
`ValueError` otherwise.  A failed parse is `none`. -/

def isDigitCh (c : Char) : Bool := '0' ≤ c && c ≤ '9'

def dval (c : Char) : Int := (c.toNat : Int) - 48

/-- `%Y`: exactly four digits. -/
def parseY4 : List Char → Option (Int × List Char)
  | a :: b :: c :: d :: rest =>
    if isDigitCh a && isDigitCh b && isDigitCh c && isDigitCh d then
      some (1000 * dval a + 100 * dval b + 10 * dval c + dval d, rest)
    else none
  | _ => none

/-- Literal `-`. -/
def parseDash : List Char → Option (List Char)
  | '-' :: rest => some rest
  | _ => none

/-- The two-character alternatives of `%m`: `1[0-2] | 0[1-9]` (disjoint by
their first character, so combining them preserves the regex's order). -/
def tryMonth2 : List Char → Option (Int × List Char)
  | '1' :: c :: rest =>
    if c = '0' ∨ c = '1' ∨ c = '2' then some (10 + dval c, rest) else none
  | '0' :: c :: rest =>
    if '1' ≤ c ∧ c ≤ '9' then some (dval c, rest) else none
  | _ => none

/-- The one-character alternative of `%m` and `%d`: `[1-9]`. -/
def tryNum1 : List Char → Option (Int × List Char)
  | c :: rest => if '1' ≤ c ∧ c ≤ '9' then some (dval c, rest) else none
  | [] => none

/-- The two-character alternatives of `%d`: `3[01] | [12]\d | 0[1-9]`
(disjoint by their first character). -/
def tryDay2 : List Char → Option (Int × List Char)
  | '3' :: c :: rest =>
    if c = '0' ∨ c = '1' then some (30 + dval c, rest) else none
  | '1' :: c :: rest =>
    if isDigitCh c then some (10 + dval c, rest) else none
  | '2' :: c :: rest =>
    if isDigitCh c then some (20 + dval c, rest) else none
  | '0' :: c :: rest =>
    if '1' ≤ c ∧ c ≤ '9' then some (dval c, rest) else none
  | _ => none

/-- `%m` at the very end of the format: the month must consume the whole rest
of the string (otherwise "unconverted data" raises). -/
def monthEnd (r : List Char) : Option Int :=
  match tryMonth2 r with
  | some (m, r2) =>
    if r2 = [] then some m
    else
      match tryNum1 r with
      | some (m', r2') => if r2' = [] then some m' else none
      | none => none
  | none =>
    match tryNum1 r with
    | some (m', r2') => if r2' = [] then some m' else none
    | none => none

/-- `%d` at the end of the format, consuming the whole rest. -/
def dayEnd (r : List Char) : Option Int :=
  match tryDay2 r with
  | some (d, r2) =>
    if r2 = [] then some d
    else
      match tryNum1 r with
      | some (d', r2') => if r2' = [] then some d' else none
      | none => none
  | none =>
    match tryNum1 r with
    | some (d', r2') => if r2' = [] then some d' else none
    | none => none

/-- `-%d` at the end of the format. -/
def dashDayEnd (r : List Char) : Option Int :=
  match parseDash r with
  | some r2 => dayEnd r2
  | none => none

/-- `%m-%d` at the end of the format, with regex backtracking: if the
two-character month alternative matches but the continuation fails, the
one-character alternative is tried on the same input. -/
def monthDashDayEnd (r : List Char) : Option (Int × Int) :=
  match tryMonth2 r with
  | some (m, r2) =>
    match dashDayEnd r2 with
    | some d => some (m, d)
    | none =>
      match tryNum1 r with
      | some (m', r2') =>
        match dashDayEnd r2' with
        | some d => some (m', d)
        | none => none
      | none => none
  | none =>
    match tryNum1 r with
    | some (m', r2') =>
      match dashDayEnd r2' with
      | some d => some (m', d)
      | none => none
    | none => none

def isLeap (y : Int) : Bool := y % 4 == 0 && (y % 100 != 0 || y % 400 == 0)

def daysInMonth (y m : Int) : Int :=
  if m = 2 then (if isLeap y then 29 else 28)
  else if m = 4 ∨ m = 6 ∨ m = 9 ∨ m = 11 then 30
  else 31

/-- `datetime.strptime(s, '%Y-%m')`, yielding `(year, month)`; the resulting
datetime is `datetime(year, month, 1, 0, 0, 0)`.  The month regex already
restricts the month to 1..12 and the constructor rejects year 0. -/
def strptimeYM (s : List Char) : Option (Int × Int) :=
  match parseY4 s with
  | none => none
  | some (y, r1) =>
    match parseDash r1 with
    | none => none
    | some r2 =>
      match monthEnd r2 with
      | none => none
      | some m => if 1 ≤ y then some (y, m) else none

/-- `datetime.strptime(s, '%Y-%m-%d')`, yielding `(year, month, day)`. -/
def strptimeYMD (s : List Char) : Option (Int × Int × Int) :=
  match parseY4 s with
  | none => none
  | some (y, r1) =>
    match parseDash r1 with
    | none => none
    | some r2 =>
      match monthDashDayEnd r2 with
      | none => none
      | some (m, d) =>
        if 1 ≤ y ∧ d ≤ daysInMonth y m then some (y, m, d) else none

/-- Days before month `m` in year `y` (`datetime._days_before_month`). -/
def daysBeforeMonth (y m : Int) : Int :=
  (if m ≤ 1 then 0 else if m = 2 then 31 else if m = 3 then 59
   else if m = 4 then 90 else if m = 5 then 120 else if m = 6 then 151
   else if m = 7 then 181 else if m = 8 then 212 else if m = 9 then 243
   else if m = 10 then 273 else if m = 11 then 304 else 334)
  + (if 3 ≤ m ∧ isLeap y then 1 else 0)

/-- `date(y, m, d).toordinal()`. -/
def toOrd (y m d : Int) : Int := jan1 y - 1 + daysBeforeMonth y m + d

/-! ## Window-membership checks -/

/-- `is_in_week` (weekly_release_radar_aiohttp.py lines 291-325).  `start_date`
and `end_date` are datetimes; the code clamps them with
`.replace(hour=0, …)` / `.replace(hour=23, minute=59, second=59,
microsecond=999999)` and compares the parsed release datetime (midnight)
against them.  Every raising path (`strptime` on malformed input) is caught by
the enclosing `except` and yields `False`. -/
def is_in_week (s : List Char) (start_date end_date : Instant) : Bool :=
  if s.length < 4 then false
  else if s.length = 4 then false
  else if s.length = 7 then
    match strptimeYM s with
    | none => false
    | some (y, m) =>
      Instant.le ⟨start_date.ord, 0⟩ ⟨toOrd y m 1, 0⟩ &&
        Instant.le ⟨toOrd y m 1, 0⟩ ⟨end_date.ord, 86399999999⟩
  else
    match strptimeYMD (s.take 10) with
    | none => false
    | some (y, m, d) =>
      Instant.le ⟨start_date.ord, 0⟩ ⟨toOrd y m d, 0⟩ &&
        Instant.le ⟨toOrd y m d, 0⟩ ⟨end_date.ord, 86399999999⟩

/-- `is_release_in_week` (release_radar_dynamo.py lines 140-171): the window
comes from `get_week_date_range(week_key)` and the parsed release datetime is
compared directly against its endpoints. -/
def is_release_in_week (s : List Char) (k : Int × Int) : Bool :=
  if s.length < 4 then false
  else if s.length = 4 then false
  else if s.length = 7 then
    match strptimeYM s with
    | none => false
    | some (y, m) =>
      Instant.le (get_week_date_range k).1 ⟨toOrd y m 1, 0⟩ &&
        Instant.le ⟨toOrd y m 1, 0⟩ (get_week_date_range k).2
  else
    match strptimeYMD (s.take 10) with
    | none => false
    | some (y, m, d) =>
      Instant.le (get_week_date_range k).1 ⟨toOrd y m d, 0⟩ &&
        Instant.le ⟨toOrd y m d, 0⟩ (get_week_date_range k).2

/-- `TrackList.__is_within_release_week` (track_list.py lines 357-407).
`week_start`/`week_end` model the optional custom window (as date ordinals,
via `.date()`); when absent the current Sunday-Saturday week of `today` is
used.  Comparison is at date granularity. -/
def is_within_release_week (week_start week_end : Option Int) (today : Int)
    (s : List Char) : Bool :=
  if s.length < 4 then false
  else
    match week_start, week_end with
    | some ws, some we =>
      if s.length = 4 then false
      else if s.length = 7 then
        match strptimeYM s with
        | none => false
        | some (y, m) => decide (ws ≤ toOrd y m 1 ∧ toOrd y m 1 ≤ we)
      else
        match strptimeYMD (s.take 10) with
        | none => false
        | some (y, m, d) => decide (ws ≤ toOrd y m d ∧ toOrd y m d ≤ we)
    | _, _ =>
      if s.length = 4 then false
      else if s.length = 7 then
        match strptimeYM s with
        | none => false
        | some (y, m) =>
          decide (today - (pyWeekday today + 1) % 7 ≤ toOrd y m 1 ∧
            toOrd y m 1 ≤ today - (pyWeekday today + 1) % 7 + 6)
      else
        match strptimeYMD (s.take 10) with
        | none => false
        | some (y, m, d) =>
          decide (today - (pyWeekday today + 1) % 7 ≤ toOrd y m d ∧
            toOrd y m d ≤ today - (pyWeekday today + 1) % 7 + 6)

/-- The release-date string `s` parses in the code's branch structure: a
7-character string must parse as `%Y-%m`, any other string of length ≥ 5 must
parse (truncated to 10 characters) as `%Y-%m-%d`.  Strings of length ≤ 4
never parse (length < 4 and length = 4 are rejected outright). -/
def parsesAsDate (s : List Char) : Prop :=
  (s.length = 7 ∧ strptimeYM s ≠ none) ∨
    (5 ≤ s.length ∧ s.length ≠ 7 ∧ strptimeYMD (s.take 10) ≠ none)

instance (s : List Char) : Decidable (parsesAsDate s) :=
  inferInstanceAs (Decidable (_ ∨ _))

/-- C5: the window-membership checks are total (they are `Bool`-valued
functions in which every raising path of the source is an explicit branch
mapped to `False`), and they return `false` for every string the code fails
to parse as a date — in particular every string of length < 4, every
length-4 (year-only) string, and every malformed longer string, since none
of those satisfies `parsesAsDate`. -/
theorem window_checks_false_on_malformed (s : List Char)
    (start_date end_date : Instant) (k : Int × Int)
    (week_start week_end : Option Int) (today : Int)
    (h : ¬ parsesAsDate s) :
    is_in_week s start_date end_date = false ∧
      is_release_in_week s k = false ∧
      is_within_release_week week_start week_end today s = false := by
  by_cases h4 : s.length < 4
  · refine ⟨?_, ?_, ?_⟩
    · simp [is_in_week, h4]
    · simp [is_release_in_week, h4]
    · simp [is_within_release_week, h4]
  · by_cases h44 : s.length = 4
    · refine ⟨?_, ?_, ?_⟩
      · simp [is_in_week, h4, h44]
      · simp [is_release_in_week, h4, h44]
      · cases week_start <;> cases week_end <;>
          simp [is_within_release_week, h4, h44]
    · by_cases h7 : s.length = 7
      · have hym : strptimeYM s = none := by
          cases hx : strptimeYM s with
          | none => rfl
          | some v =>
            exact absurd (Or.inl ⟨h7, by simp [hx]⟩) h
        refine ⟨?_, ?_, ?_⟩
        · simp [is_in_week, h4, h44, h7, hym]
        · simp [is_release_in_week, h4, h44, h7, hym]
        · cases week_start <;> cases week_end <;>
            simp [is_within_release_week, h4, h44, h7, hym]
      · have hymd : strptimeYMD (s.take 10) = none := by
          cases hx : strptimeYMD (s.take 10) with
          | none => rfl
          | some v =>
            exact absurd (Or.inr ⟨by omega, h7, by simp [hx]⟩) h
        refine ⟨?_, ?_, ?_⟩
        · simp [is_in_week, h4, h44, h7, hymd]
        · simp [is_release_in_week, h4, h44, h7, hymd]
        · cases week_start <;> cases week_end <;>
            simp [is_within_release_week, h4, h44, h7, hymd]

/-- Witness for C5 at the year-only string "2024". -/
theorem window_checks_false_on_malformed_witness :
    ¬ parsesAsDate ['2', '0', '2', '4'] ∧
      (is_in_week ['2', '0', '2', '4'] ⟨739236, 0⟩ ⟨739242, 0⟩ = false ∧
        is_release_in_week ['2', '0', '2', '4'] (2024, 17) = false ∧
        is_within_release_week none none 739239 ['2', '0', '2', '4'] = false) :=
  ⟨by decide,
    window_checks_false_on_malformed ['2', '0', '2', '4'] ⟨739236, 0⟩ ⟨739242, 0⟩
      (2024, 17) none none 739239 (by decide)⟩

/-- C6: a year-month string "YYYY-MM" is compared as the first day of that
month: the membership checks return `true` exactly when the ordinal of
`datetime(year, month, 1)` lies between the window's start day and end day
(the start instant has time 00:00:00 and the end instant 23:59:59.999999, so
the midnight release datetime is inside the window iff its day is). -/
theorem ym_treated_as_first_of_month (s : List Char) (y m : Int)
    (start_date end_date : Instant) (k : Int × Int)
    (hs : s.length = 7) (hp : strptimeYM s = some (y, m)) :
    (is_in_week s start_date end_date = true ↔
      (start_date.ord ≤ toOrd y m 1 ∧ toOrd y m 1 ≤ end_date.ord)) ∧
      (is_release_in_week s k = true ↔
        ((get_week_date_range k).1.ord ≤ toOrd y m 1 ∧
          toOrd y m 1 ≤ (get_week_date_range k).2.ord)) := by
  constructor
  · simp only [is_in_week, hs, hp]
    norm_num [Instant.le]
    omega
  · simp only [is_release_in_week, hs, hp, get_week_date_range]
    norm_num [Instant.le]
    omega

/-- Witness for C6 at "2024-12" against the week window of key (2024, 17). -/
theorem ym_treated_as_first_of_month_witness :
    (['2', '0', '2', '4', '-', '1', '2'] : List Char).length = 7 ∧
      strptimeYM ['2', '0', '2', '4', '-', '1', '2'] = some (2024, 12) ∧
      (is_in_week ['2', '0', '2', '4', '-', '1', '2'] ⟨739236, 0⟩ ⟨739242, 0⟩ = true ↔
        ((739236 : Int) ≤ toOrd 2024 12 1 ∧ toOrd 2024 12 1 ≤ 739242)) :=
  ⟨by decide, by decide,
    (ym_treated_as_first_of_month ['2', '0', '2', '4', '-', '1', '2'] 2024 12
      ⟨739236, 0⟩ ⟨739242, 0⟩ (2024, 17) (by decide) (by decide)).1⟩

/-! ## HTTP retry client (aiohttp_helper.py)

Each logical call is modelled as a function of a response script
`resps : Nat → HttpResp` giving the outcome of the request issued on attempt
`retry_count`.  The call returns the list of observable events (rate-gate
waits, gate closes/opens, sleeps) in program order, together with its result:
`ok` for a returned body, `apiError` for a raised `SpotifyAPIError` (whose
`endpoint` field is the url).  Response bodies are abstract (`Js.body`);
`resp.json()` parse failures and malformed `Retry-After` headers are outside
this model (`retryAfter` is the parsed header value when present). -/

/-- A JSON value as far as the client distinguishes them. -/
inductive Js where
  | body (n : Nat)
  | emptyLists
  | statusOk
  deriving DecidableEq, Repr

/-- Outcome of one issued request: an HTTP response, or an
`aiohttp.ClientError` raised by the transport. -/
inductive HttpResp where
  | http (status : Int) (retryAfter : Option Int) (json : Js) (text : List Char)
  | clientError
  deriving DecidableEq, Repr

/-- The `message` argument of the raised `SpotifyAPIError`, by constructor
site. -/
inductive ErrMsg where
  | rateLimitExceeded (retries : Nat)
  | unauthorized
  | apiErrorStatus (status : Int) (text : List Char)
  | requestFailed (retries : Nat)
  | postFailed (retries : Nat)
  | wrapped
  deriving DecidableEq, Repr

inductive FetchResult where
  | ok (js : Js)
  | apiError (msg : ErrMsg) (endpoint : List Char)
  deriving DecidableEq, Repr

/-- Observable side effects, in program order. -/
inductive Ev where
  | gateWait
  | gateClose
  | gateOpen
  | sleep (seconds : Int)
  deriving DecidableEq, Repr

def MAX_RETRIES : Nat := 3

/-- `fetch_json` (aiohttp_helper.py lines 45-131): GET with 429 gate
handling, 401/404/other-status policy, and transport retry with exponential
backoff. -/
def fetch_json (resps : Nat → HttpResp) (url : List Char) (retry_count : Nat) :
    List Ev × FetchResult :=
  match resps retry_count with
  | .clientError =>
    if retry_count < MAX_RETRIES then
      let r := fetch_json resps url (retry_count + 1)
      (Ev.gateWait :: Ev.sleep ((2 : Int) ^ retry_count + 1) :: r.1, r.2)
    else
      ([Ev.gateWait], .apiError (.requestFailed MAX_RETRIES) url)
  | .http status retryAfter js text =>
    if status = 429 then
      if retry_count < MAX_RETRIES then
        let r := fetch_json resps url (retry_count + 1)
        (Ev.gateWait :: Ev.gateClose :: Ev.sleep (retryAfter.getD 1 + 1) ::
          Ev.gateOpen :: r.1, r.2)
      else
        ([Ev.gateWait, Ev.gateClose, Ev.sleep (retryAfter.getD 1 + 1), Ev.gateOpen],
          .apiError (.rateLimitExceeded MAX_RETRIES) url)
    else if status = 401 then
      ([Ev.gateWait], .apiError .unauthorized url)
    else if status = 404 then
      ([Ev.gateWait], .ok .emptyLists)
    else if status ≠ 200 then
      ([Ev.gateWait], .apiError (.apiErrorStatus status text) url)
    else
      ([Ev.gateWait], .ok js)
  termination_by MAX_RETRIES + 1 - retry_count
  decreasing_by all_goals omega

/-- `post_json` (aiohttp_helper.py lines 134-199): like GET but accepts
200/201, has no 404 branch, and wraps transport failures in a POST-specific
message. -/
def post_json (resps : Nat → HttpResp) (url : List Char) (retry_count : Nat) :
    List Ev × FetchResult :=
  match resps retry_count with
  | .clientError =>
    if retry_count < MAX_RETRIES then
      let r := post_json resps url (retry_count + 1)
      (Ev.gateWait :: Ev.sleep ((2 : Int) ^ retry_count + 1) :: r.1, r.2)
    else
      ([Ev.gateWait], .apiError (.postFailed MAX_RETRIES) url)
  | .http status retryAfter js text =>
    if status = 429 then
      if retry_count < MAX_RETRIES then
        let r := post_json resps url (retry_count + 1)
        (Ev.gateWait :: Ev.gateClose :: Ev.sleep (retryAfter.getD 1 + 1) ::
          Ev.gateOpen :: r.1, r.2)
      else
        ([Ev.gateWait, Ev.gateClose, Ev.sleep (retryAfter.getD 1 + 1), Ev.gateOpen],
          .apiError (.rateLimitExceeded MAX_RETRIES) url)
    else if status = 401 then
      ([Ev.gateWait], .apiError .unauthorized url)
    else if status ≠ 200 ∧ status ≠ 201 then
      ([Ev.gateWait], .apiError (.apiErrorStatus status text) url)
    else
      ([Ev.gateWait], .ok js)
  termination_by MAX_RETRIES + 1 - retry_count
  decreasing_by all_goals omega

/-- `delete_json` (aiohttp_helper.py lines 202-253): 429 handling as above;
any other exception — including `aiohttp.ClientError` — falls through to the
generic `except Exception` handler and is wrapped immediately, with no
retry. -/
def delete_json (resps : Nat → HttpResp) (url : List Char) (retry_count : Nat) :
    List Ev × FetchResult :=
  match resps retry_count with
  | .clientError =>
    ([Ev.gateWait], .apiError .wrapped url)
  | .http status retryAfter js text =>
    if status = 429 then
      if retry_count < MAX_RETRIES then
        let r := delete_json resps url (retry_count + 1)
        (Ev.gateWait :: Ev.gateClose :: Ev.sleep (retryAfter.getD 1 + 1) ::
          Ev.gateOpen :: r.1, r.2)
      else
        ([Ev.gateWait, Ev.gateClose, Ev.sleep (retryAfter.getD 1 + 1), Ev.gateOpen],
          .apiError (.rateLimitExceeded MAX_RETRIES) url)
    else if status ≠ 200 ∧ status ≠ 201 then
      ([Ev.gateWait], .apiError (.apiErrorStatus status text) url)
    else
      ([Ev.gateWait], .ok js)
  termination_by MAX_RETRIES + 1 - retry_count
  decreasing_by all_goals omega

/-- `put_data` (aiohttp_helper.py lines 256-303): accepts 200/201/202,
always returns the `{"status": "ok"}` marker on success, and, like DELETE,
wraps transport failures immediately without retrying. -/
def put_data (resps : Nat → HttpResp) (url : List Char) (retry_count : Nat) :
    List Ev × FetchResult :=
  match resps retry_count with
  | .clientError =>
    ([Ev.gateWait], .apiError .wrapped url)
  | .http status retryAfter js text =>
    if status = 429 then
      if retry_count < MAX_RETRIES then
        let r := put_data resps url (retry_count + 1)
        (Ev.gateWait :: Ev.gateClose :: Ev.sleep (retryAfter.getD 1 + 1) ::
          Ev.gateOpen :: r.1, r.2)
      else
        ([Ev.gateWait, Ev.gateClose, Ev.sleep (retryAfter.getD 1 + 1), Ev.gateOpen],
          .apiError (.rateLimitExceeded MAX_RETRIES) url)
    else if status ≠ 200 ∧ status ≠ 201 ∧ status ≠ 202 then
      ([Ev.gateWait], .apiError (.apiErrorStatus status text) url)
    else
      ([Ev.gateWait], .ok .statusOk)
  termination_by MAX_RETRIES + 1 - retry_count
  decreasing_by all_goals omega

/-- C1: on a 429 response, `fetch_json` reads the `Retry-After` header
(defaulting to 1), closes the shared rate gate, sleeps `retry_after + 1`
seconds, reopens the gate, and retries the same call with the attempt counter
incremented; once the counter has reached `MAX_RETRIES = 3`, it instead
fails with the rate-limit-exceeded error whose `endpoint` is the url. -/
theorem fetch_json_429_policy (resps : Nat → HttpResp) (url : List Char)
    (retry : Nat) (ra : Option Int) (js : Js) (text : List Char)
    (hr : resps retry = .http 429 ra js text) :
    (retry < MAX_RETRIES →
      fetch_json resps url retry
        = (Ev.gateWait :: Ev.gateClose :: Ev.sleep (ra.getD 1 + 1) :: Ev.gateOpen ::
            (fetch_json resps url (retry + 1)).1,
          (fetch_json resps url (retry + 1)).2)) ∧
    (MAX_RETRIES ≤ retry →
      fetch_json resps url retry
        = ([Ev.gateWait, Ev.gateClose, Ev.sleep (ra.getD 1 + 1), Ev.gateOpen],
          .apiError (.rateLimitExceeded MAX_RETRIES) url)) := by
  constructor <;> intro h
  · rw [fetch_json, hr]
    dsimp only
    rw [if_pos rfl, if_pos h]
  · rw [fetch_json, hr]
    dsimp only
    rw [if_pos rfl, if_neg (by omega)]

/-- Constant-429 response script used by the C1 witness. -/
def resps429 : Nat → HttpResp := fun _ => HttpResp.http 429 (some 2) (Js.body 0) []

/-- Witness for C1: with every attempt answered 429 (`Retry-After: 2`), the
call at attempt counter 3 fails with the rate-limit error naming the url. -/
theorem fetch_json_429_policy_witness :
    resps429 3 = HttpResp.http 429 (some 2) (Js.body 0) [] ∧
      fetch_json resps429 (str "endpoint-url") 3
        = ([Ev.gateWait, Ev.gateClose, Ev.sleep 3, Ev.gateOpen],
          FetchResult.apiError (.rateLimitExceeded MAX_RETRIES) (str "endpoint-url")) :=
  ⟨rfl, by
    have h := (fetch_json_429_policy resps429 (str "endpoint-url") 3 (some 2) (Js.body 0) []
      rfl).2 (by decide)
    simpa using h⟩

/-- C4 (amended): transport-level failures (`aiohttp.ClientError`) are
retried with exponential backoff `2^attempt + 1` only by `fetch_json` and
`post_json`; `delete_json` and `put_data` have no `ClientError` handler, so
the generic `except Exception` wraps the transport error immediately and the
call fails with no retry. -/
theorem transport_retry_policy (resps : Nat → HttpResp) (url : List Char)
    (retry : Nat) (hr : resps retry = HttpResp.clientError) :
    (retry < MAX_RETRIES →
      fetch_json resps url retry
        = (Ev.gateWait :: Ev.sleep ((2 : Int) ^ retry + 1) ::
            (fetch_json resps url (retry + 1)).1,
          (fetch_json resps url (retry + 1)).2) ∧
      post_json resps url retry
        = (Ev.gateWait :: Ev.sleep ((2 : Int) ^ retry + 1) ::
            (post_json resps url (retry + 1)).1,
          (post_json resps url (retry + 1)).2)) ∧
    (MAX_RETRIES ≤ retry →
      fetch_json resps url retry
        = ([Ev.gateWait], .apiError (.requestFailed MAX_RETRIES) url) ∧
      post_json resps url retry
        = ([Ev.gateWait], .apiError (.postFailed MAX_RETRIES) url)) ∧
    delete_json resps url retry = ([Ev.gateWait], .apiError .wrapped url) ∧
    put_data resps url retry = ([Ev.gateWait], .apiError .wrapped url) := by
  refine ⟨?_, ?_, ?_, ?_⟩
  · intro h
    constructor
    · rw [fetch_json, hr]
      dsimp only
      rw [if_pos h]
    · rw [post_json, hr]
      dsimp only
      rw [if_pos h]
  · intro h
    constructor
    · rw [fetch_json, hr]
      dsimp only
      rw [if_neg (by omega)]
    · rw [post_json, hr]
      dsimp only
      rw [if_neg (by omega)]
  · rw [delete_json, hr]
  · rw [put_data, hr]

/-- Witness for C4 (amended) at the constant transport-failure script:
`delete_json` fails immediately with the wrapped error. -/
theorem transport_retry_policy_witness :
    (fun _ : Nat => HttpResp.clientError) 0 = HttpResp.clientError ∧
      delete_json (fun _ => HttpResp.clientError) (str "w") 0
        = ([Ev.gateWait], FetchResult.apiError .wrapped (str "w")) :=
  ⟨rfl, (transport_retry_policy (fun _ => HttpResp.clientError) (str "w") 0 rfl).2.2.1⟩

/-- Response script of the C4 counterexample: the first request hits a
transport error, every later attempt would succeed with status 200. -/
def cexTransport : Nat → HttpResp :=
  fun n => if n = 0 then HttpResp.clientError else HttpResp.http 200 none (Js.body 7) []

/-- Counterexample for C4 as stated: against `cexTransport`, a retrying
client succeeds on the second attempt — and `fetch_json` does exactly that —
but `delete_json` and `put_data` fail immediately with the wrapped transport
error after the very first attempt, with no backoff sleep and no retry. -/
theorem transport_retry_cex :
    delete_json cexTransport (str "u") 0
        = ([Ev.gateWait], FetchResult.apiError .wrapped (str "u")) ∧
      put_data cexTransport (str "u") 0
        = ([Ev.gateWait], FetchResult.apiError .wrapped (str "u")) ∧
      fetch_json cexTransport (str "u") 0
        = ([Ev.gateWait, Ev.sleep 2, Ev.gateWait], FetchResult.ok (Js.body 7)) := by
  refine ⟨?_, ?_, ?_⟩
  · rw [delete_json]
    norm_num [cexTransport]
  · rw [put_data]
    norm_num [cexTransport]
  · rw [fetch_json]
    norm_num [cexTransport, MAX_RETRIES]
    rw [fetch_json]
    norm_num [cexTransport]

/-- The open/closed state of the rate-gate event after a list of events,
starting open (`_rate_limited` is created in the set state). -/
def gateStep (g : Bool) (e : Ev) : Bool :=
  match e with
  | .gateClose => false
  | .gateOpen => true
  | _ => g

def gateOpenAfter (evs : List Ev) : Bool := evs.foldl gateStep true

theorem gate_fetch_aux (resps : Nat → HttpResp) (url : List Char) (n : Nat) :
    ∀ retry, MAX_RETRIES + 1 - retry ≤ n →
      gateOpenAfter (fetch_json resps url retry).1 = true := by
  induction n with
  | zero =>
    intro retry h
    rw [fetch_json]
    cases hr : resps retry with
    | clientError =>
      dsimp only
      rw [if_neg (by omega)]
      rfl
    | http status ra js text =>
      dsimp only
      by_cases h429 : status = 429
      · rw [if_pos h429, if_neg (show ¬ retry < MAX_RETRIES by omega)]
        rfl
      · rw [if_neg h429]
        split_ifs <;> rfl
  | succ m ih =>
    intro retry h
    rw [fetch_json]
    cases hr : resps retry with
    | clientError =>
      dsimp only
      by_cases hlt : retry < MAX_RETRIES
      · rw [if_pos hlt]
        have hx := ih (retry + 1) (by omega)
        simpa [gateOpenAfter, gateStep] using hx
      · rw [if_neg hlt]
        rfl
    | http status ra js text =>
      dsimp only
      by_cases h429 : status = 429
      · rw [if_pos h429]
        by_cases hlt : retry < MAX_RETRIES
        · rw [if_pos hlt]
          have hx := ih (retry + 1) (by omega)
          simpa [gateOpenAfter, gateStep] using hx
        · rw [if_neg hlt]
          rfl
      · rw [if_neg h429]
        split_ifs <;> rfl

theorem gate_post_aux (resps : Nat → HttpResp) (url : List Char) (n : Nat) :
    ∀ retry, MAX_RETRIES + 1 - retry ≤ n →
      gateOpenAfter (post_json resps url retry).1 = true := by
  induction n with
  | zero =>
    intro retry h
    rw [post_json]
    cases hr : resps retry with
    | clientError =>
      dsimp only
      rw [if_neg (by omega)]
      rfl
    | http status ra js text =>
      dsimp only
      by_cases h429 : status = 429
      · rw [if_pos h429, if_neg (show ¬ retry < MAX_RETRIES by omega)]
        rfl
      · rw [if_neg h429]
        split_ifs <;> rfl
  | succ m ih =>
    intro retry h
    rw [post_json]
    cases hr : resps retry with
    | clientError =>
      dsimp only
      by_cases hlt : retry < MAX_RETRIES
      · rw [if_pos hlt]
        have hx := ih (retry + 1) (by omega)
        simpa [gateOpenAfter, gateStep] using hx
      · rw [if_neg hlt]
        rfl
    | http status ra js text =>
      dsimp only
      by_cases h429 : status = 429
      · rw [if_pos h429]
        by_cases hlt : retry < MAX_RETRIES
        · rw [if_pos hlt]
          have hx := ih (retry + 1) (by omega)
          simpa [gateOpenAfter, gateStep] using hx
        · rw [if_neg hlt]
          rfl
      · rw [if_neg h429]
        split_ifs <;> rfl

theorem gate_delete_aux (resps : Nat → HttpResp) (url : List Char) (n : Nat) :
    ∀ retry, MAX_RETRIES + 1 - retry ≤ n →
      gateOpenAfter (delete_json resps url retry).1 = true := by
  induction n with
  | zero =>
    intro retry h
    rw [delete_json]
    cases hr : resps retry with
    | clientError =>
      dsimp only
      rfl
    | http status ra js text =>
      dsimp only
      by_cases h429 : status = 429
      · rw [if_pos h429, if_neg (show ¬ retry < MAX_RETRIES by omega)]
        rfl
      · rw [if_neg h429]
        split_ifs <;> rfl
  | succ m ih =>
    intro retry h
    rw [delete_json]
    cases hr : resps retry with
    | clientError =>
      dsimp only
      rfl
    | http status ra js text =>
      dsimp only
      by_cases h429 : status = 429
      · rw [if_pos h429]
        by_cases hlt : retry < MAX_RETRIES
        · rw [if_pos hlt]
          have hx := ih (retry + 1) (by omega)
          simpa [gateOpenAfter, gateStep] using hx
        · rw [if_neg hlt]
          rfl
      · rw [if_neg h429]
        split_ifs <;> rfl

theorem gate_put_aux (resps : Nat → HttpResp) (url : List Char) (n : Nat) :
    ∀ retry, MAX_RETRIES + 1 - retry ≤ n →
      gateOpenAfter (put_data resps url retry).1 = true := by
  induction n with
  | zero =>
    intro retry h
    rw [put_data]
    cases hr : resps retry with
    | clientError =>
      dsimp only
      rfl
    | http status ra js text =>
      dsimp only
      by_cases h429 : status = 429
      · rw [if_pos h429, if_neg (show ¬ retry < MAX_RETRIES by omega)]
        rfl
      · rw [if_neg h429]
        split_ifs <;> rfl
  | succ m ih =>
    intro retry h
    rw [put_data]
    cases hr : resps retry with
    | clientError =>
      dsimp only
      rfl
    | http status ra js text =>
      dsimp only
      by_cases h429 : status = 429
      · rw [if_pos h429]
        by_cases hlt : retry < MAX_RETRIES
        · rw [if_pos hlt]
          have hx := ih (retry + 1) (by omega)
          simpa [gateOpenAfter, gateStep] using hx
        · rw [if_neg hlt]
          rfl
      · rw [if_neg h429]
        split_ifs <;> rfl

/-- C10: in every HTTP operation of the client, every path that clears the
rate-gate event (429 handling) sets it again before the call returns or
raises: for every response script, url and starting attempt counter, the
gate is open after the call's event trace (it starts open, so this says no
completed call — successful or failed — leaves it closed). -/
theorem rate_gate_reopened (resps : Nat → HttpResp) (url : List Char) (retry : Nat) :
    gateOpenAfter (fetch_json resps url retry).1 = true ∧
      gateOpenAfter (post_json resps url retry).1 = true ∧
      gateOpenAfter (delete_json resps url retry).1 = true ∧
      gateOpenAfter (put_data resps url retry).1 = true :=
  ⟨gate_fetch_aux resps url (MAX_RETRIES + 1 - retry) retry (by omega),
    gate_post_aux resps url (MAX_RETRIES + 1 - retry) retry (by omega),
    gate_delete_aux resps url (MAX_RETRIES + 1 - retry) retry (by omega),
    gate_put_aux resps url (MAX_RETRIES + 1 - retry) retry (by omega)⟩

/-! ## Artist release scanner (weekly_release_radar_aiohttp.py)

`fetch_releases_for_week` is embedded over an environment
`fetch : artist id → include_group → Except Unit (List Album)` giving, for
each per-category request, either the `items` list of the JSON response or an
exception (any error raised by `fetch_json`).  An `Album` carries exactly the
fields the loop body reads, each optional where the code uses `.get`. -/

structure ArtistObj where
  id : Option (List Char)
  name : Option (List Char)
  deriving DecidableEq, Repr

structure Album where
  id : Option (List Char)
  name : Option (List Char)
  album_type : Option (List Char)
  artists : Option (List ArtistObj)
  release_date : Option (List Char)
  total_tracks : Option Int
  images : Option (List (Option (List Char)))
  spotify_url : Option (List Char)
  uri : Option (List Char)
  deriving DecidableEq, Repr

/-- The normalized release dict appended to `releases`. -/
structure Release where
  albumId : List Char
  albumName : Option (List Char)
  albumType : Option (List Char)
  artistId : Option (List Char)
  artistName : List Char
  releaseDate : List Char
  totalTracks : Int
  imageUrl : Option (List Char)
  spotifyUrl : Option (List Char)
  uri : Option (List Char)
  deriving DecidableEq, Repr

/-- The mutable state of one scan: the accumulated `releases` list and the
`seen_ids` set (a Python `set`, modelled by the list of members). -/
structure ScanState where
  releases : List Release
  seen_ids : List (List Char)
  deriving DecidableEq, Repr

/-- `album.get('artists', [{}])[0]` in the non-raising cases (absent key
defaults to `[{}]`, whose first element is the empty dict). -/
def firstArtist (a : Album) : ArtistObj :=
  match a.artists with
  | some (x :: _) => x
  | _ => ⟨none, none⟩

def mkRelease (aid : List Char) (a : Album) : Release :=
  { albumId := aid
    albumName := a.name
    albumType := a.album_type
    artistId := (firstArtist a).id
    artistName := ((firstArtist a).name).getD (str "Unknown")
    releaseDate := a.release_date.getD []
    totalTracks := a.total_tracks.getD 1
    imageUrl :=
      match a.images with
      | some (u :: _) => u
      | _ => none
    spotifyUrl := a.spotify_url
    uri := a.uri }

/-- One iteration of `for album in data.get('items', [])`.  The `error` case
models the `IndexError` raised by `album.get('artists', [{}])[0]` when the
album carries an explicit empty `artists` list; it fires after
`seen_ids.add(album_id)`, so the state at the raise point travels in the
error (Python mutation survives the exception). -/
def processAlbum (start_date end_date : Instant) (st : ScanState) (a : Album) :
    Except ScanState ScanState :=
  match a.id with
  | none => .ok st
  | some aid =>
    if aid = [] then .ok st
    else if aid ∈ st.seen_ids then .ok st
    else if ¬ is_in_week (a.release_date.getD []) start_date end_date then .ok st
    else
      let st1 : ScanState := { st with seen_ids := aid :: st.seen_ids }
      match a.artists with
      | some [] => .error st1
      | _ => .ok { st1 with releases := st1.releases ++ [mkRelease aid a] }

def processAlbums (start_date end_date : Instant) :
    ScanState → List Album → Except ScanState ScanState
  | st, [] => .ok st
  | st, a :: rest =>
    match processAlbum start_date end_date st a with
    | .error st1 => .error st1
    | .ok st1 => processAlbums start_date end_date st1 rest

def include_groups : List (List Char) := [str "album", str "single", str "appears_on"]

/-- The `try` body for one artist: one fetch per category, in order.  An
exception — from the fetch or from the album loop — aborts the artist's
remaining categories and is swallowed by the per-artist
`except Exception: continue`, keeping whatever state was built. -/
def processGroups (fetch : List Char → List Char → Except Unit (List Album))
    (start_date end_date : Instant) (aid : List Char) :
    List (List Char) → ScanState → ScanState
  | [], st => st
  | g :: gs, st =>
    match fetch aid g with
    | .error _ => st
    | .ok albums =>
      match processAlbums start_date end_date st albums with
      | .error st1 => st1
      | .ok st1 => processGroups fetch start_date end_date aid gs st1

def processArtist (fetch : List Char → List Char → Except Unit (List Album))
    (start_date end_date : Instant) (st : ScanState) (aid : List Char) : ScanState :=
  processGroups fetch start_date end_date aid include_groups st

/-- The batch slices `artist_ids[i:i+batch_size]` of
`for i in range(0, total, batch_size)` with `batch_size = 20`, in order.  The
fuel argument (instantiated with the list length) makes the recursion
structural; the sleep between batches has no effect on the result. -/
def chunksGo : Nat → List (List Char) → List (List (List Char))
  | _, [] => []
  | 0, _ :: _ => []
  | n + 1, l => l.take 20 :: chunksGo n (l.drop 20)

/-- Python string `<` (lexicographic on code points), used as the sort key
comparison on `releaseDate`. -/
def strLt : List Char → List Char → Bool
  | [], [] => false
  | [], _ :: _ => true
  | _ :: _, [] => false
  | a :: as, b :: bs => if a = b then strLt as bs else decide (a < b)

/-- Stable descending insertion by `releaseDate`: `r` is placed before the
first element whose key is not greater, so equal keys keep their original
relative order — the unique result of CPython's stable
`releases.sort(key=…, reverse=True)`. -/
def insertRelDesc (r : Release) : List Release → List Release
  | [] => [r]
  | x :: xs =>
    if strLt r.releaseDate x.releaseDate then x :: insertRelDesc r xs
    else r :: x :: xs

def sortReleasesDesc (l : List Release) : List Release := l.foldr insertRelDesc []

/-- `fetch_releases_for_week` (weekly_release_radar_aiohttp.py lines
208-288). -/
def fetch_releases_for_week (fetch : List Char → List Char → Except Unit (List Album))
    (start_date end_date : Instant) (artist_ids : List (List Char)) : List Release :=
  sortReleasesDesc
    (((chunksGo artist_ids.length artist_ids).foldl
        (fun (st : ScanState) (batch : List (List Char)) =>
          batch.foldl (processArtist fetch start_date end_date) st)
        (⟨[], []⟩ : ScanState)).releases)

/-! ### Scanner lemmas -/

theorem insertRelDesc_perm (r : Release) (l : List Release) :
    (insertRelDesc r l).Perm (r :: l) := by
  induction l with
  | nil => rfl
  | cons x xs ih =>
    unfold insertRelDesc
    split
    · exact ((ih.cons x).trans (List.Perm.swap r x xs))
    · rfl

theorem sortReleasesDesc_perm (l : List Release) : (sortReleasesDesc l).Perm l := by
  induction l with
  | nil => rfl
  | cons x xs ih =>
    have h1 : sortReleasesDesc (x :: xs) = insertRelDesc x (sortReleasesDesc xs) := rfl
    rw [h1]
    exact (insertRelDesc_perm x (sortReleasesDesc xs)).trans (ih.cons x)

theorem chunksGo_foldl (step : ScanState → List Char → ScanState) :
    ∀ (n : Nat) (l : List (List Char)) (st : ScanState), l.length ≤ n →
      (chunksGo n l).foldl (fun s c => c.foldl step s) st = l.foldl step st := by
  intro n
  induction n with
  | zero =>
    intro l st h
    have : l = [] := by
      cases l with
      | nil => rfl
      | cons a as => simp at h
    subst this
    rfl
  | succ m ih =>
    intro l st h
    cases l with
    | nil => rfl
    | cons a as =>
      show (chunksGo (m + 1) (a :: as)).foldl _ st = _
      have hc : chunksGo (m + 1) (a :: as)
          = (a :: as).take 20 :: chunksGo m ((a :: as).drop 20) := rfl
      rw [hc]
      rw [List.foldl_cons]
      rw [ih ((a :: as).drop 20) _ (by simp at h ⊢; omega)]
      rw [← List.foldl_append]
      rw [List.take_append_drop]

/-- The chunked batch loop computes the same state as the flat fold over all
artist ids. -/
theorem fetch_releases_flat (fetch : List Char → List Char → Except Unit (List Album))
    (start_date end_date : Instant) (artist_ids : List (List Char)) :
    fetch_releases_for_week fetch start_date end_date artist_ids
      = sortReleasesDesc
          ((artist_ids.foldl (processArtist fetch start_date end_date) ⟨[], []⟩).releases) := by
  unfold fetch_releases_for_week
  rw [chunksGo_foldl _ _ _ _ (le_refl _)]

/-- C2 (amended): an artist whose very first category fetch raises contributes
nothing at all — the scan result is the same as if that artist were not in
the list; no exception propagates and every other artist's contribution is
unchanged. -/
theorem artist_failure_isolation (fetch : List Char → List Char → Except Unit (List Album))
    (start_date end_date : Instant) (pre post : List (List Char)) (a : List Char)
    (hfail : fetch a (str "album") = Except.error ()) :
    fetch_releases_for_week fetch start_date end_date (pre ++ a :: post)
      = fetch_releases_for_week fetch start_date end_date (pre ++ post) := by
  rw [fetch_releases_flat, fetch_releases_flat]
  rw [List.foldl_append, List.foldl_append, List.foldl_cons]
  have hskip : ∀ st, processArtist fetch start_date end_date st a = st := by
    intro st
    unfold processArtist include_groups processGroups
    rw [hfail]
  rw [hskip]

/-- Environment of the C2 counterexample: the `album` category of any artist
returns one in-window album, every other category raises. -/
def cexAlbumA : Album :=
  { id := some (str "alb1")
    name := some (str "A")
    album_type := some (str "album")
    artists := some [⟨some (str "ar1"), some (str "Artist")⟩]
    release_date := some (str "2024-12-19")
    total_tracks := some 10
    images := none
    spotify_url := none
    uri := some (str "spotify:album:alb1") }

def cexFetch : List Char → List Char → Except Unit (List Album) :=
  fun _ g => if g = str "album" then .ok [cexAlbumA] else .error ()

/-- Counterexample for C2 as stated: scanning the single artist "a1" raises
on its second category (`single`), yet the artist's contribution is not
empty — the album fetched before the exception stays in the result. -/
theorem artist_failure_partial_cex :
    cexFetch (str "a1") (str "single") = Except.error () ∧
      fetch_releases_for_week cexFetch ⟨739236, 0⟩ ⟨739242, 0⟩ [str "a1"]
        = [mkRelease (str "alb1") cexAlbumA] := by
  constructor
  · rfl
  · decide

/-- Environment of the C2 witness: artist "bad" raises on every fetch,
artist "good" has one in-window album. -/
def cexFetch2 : List Char → List Char → Except Unit (List Album) :=
  fun aid g =>
    if aid = str "bad" then .error ()
    else if g = str "album" then .ok [cexAlbumA] else .ok []

/-- Witness for C2 (amended) at a concrete environment: removing the artist
whose first fetch raises leaves the scan result unchanged. -/
theorem artist_failure_isolation_witness :
    cexFetch2 (str "bad") (str "album") = Except.error () ∧
      fetch_releases_for_week cexFetch2 ⟨739236, 0⟩ ⟨739242, 0⟩ [str "good", str "bad"]
        = fetch_releases_for_week cexFetch2 ⟨739236, 0⟩ ⟨739242, 0⟩ [str "good"] :=
  ⟨rfl, artist_failure_isolation cexFetch2 ⟨739236, 0⟩ ⟨739242, 0⟩ [str "good"] []
    (str "bad") rfl⟩

/-! ### Dedup invariants (C8) -/

/-- Scan-state invariant: accumulated records have pairwise distinct album
ids, and every accumulated id has been entered into `seen_ids`. -/
def ScanInv (st : ScanState) : Prop :=
  st.releases.Pairwise (fun r1 r2 => r1.albumId ≠ r2.albumId) ∧
    ∀ r ∈ st.releases, r.albumId ∈ st.seen_ids

def unExcept (e : Except ScanState ScanState) : ScanState :=
  match e with
  | .ok s => s
  | .error s => s

theorem ScanInv_seen {st : ScanState} (aid : List Char) (h : ScanInv st) :
    ScanInv ⟨st.releases, aid :: st.seen_ids⟩ := by
  obtain ⟨hp, hm⟩ := h
  exact ⟨hp, fun r hr => List.mem_cons_of_mem _ (hm r hr)⟩

theorem ScanInv_extend {st : ScanState} {aid : List Char} {rel : Release}
    (h : ScanInv st) (hnot : aid ∉ st.seen_ids) (hid : rel.albumId = aid) :
    ScanInv ⟨st.releases ++ [rel], aid :: st.seen_ids⟩ := by
  obtain ⟨hp, hm⟩ := h
  constructor
  · rw [List.pairwise_append]
    refine ⟨hp, List.pairwise_singleton _ _, ?_⟩
    intro r hr r' hr'
    simp only [List.mem_singleton] at hr'
    subst hr'
    intro hEq
    apply hnot
    have hmem : r.albumId ∈ st.seen_ids := hm r hr
    rwa [hEq, hid] at hmem
  · intro r hr
    rcases List.mem_append.1 hr with h1 | h1
    · exact List.mem_cons_of_mem _ (hm r h1)
    · simp only [List.mem_singleton] at h1
      subst h1
      rw [hid]
      exact List.mem_cons_self _ _

/-- `processAlbum` either skips, or registers a fresh id — raising or not. -/
theorem processAlbum_cases (sd ed : Instant) (st : ScanState) (a : Album) :
    processAlbum sd ed st a = .ok st ∨
      ∃ aid, a.id = some aid ∧ aid ∉ st.seen_ids ∧
        (processAlbum sd ed st a = .error ⟨st.releases, aid :: st.seen_ids⟩ ∨
          processAlbum sd ed st a
            = .ok ⟨st.releases ++ [mkRelease aid a], aid :: st.seen_ids⟩) := by
  unfold processAlbum
  cases ha : a.id with
  | none => exact Or.inl rfl
  | some aid =>
    dsimp only
    by_cases h1 : aid = []
    · rw [if_pos h1]
      exact Or.inl rfl
    rw [if_neg h1]
    by_cases h2 : aid ∈ st.seen_ids
    · rw [if_pos h2]
      exact Or.inl rfl
    rw [if_neg h2]
    by_cases h3 : ¬ is_in_week (a.release_date.getD []) sd ed = true
    · rw [if_pos h3]
      exact Or.inl rfl
    rw [if_neg h3]
    cases hart : a.artists with
    | none => exact Or.inr ⟨aid, rfl, h2, Or.inr rfl⟩
    | some l =>
      cases l with
      | nil => exact Or.inr ⟨aid, rfl, h2, Or.inl rfl⟩
      | cons x xs => exact Or.inr ⟨aid, rfl, h2, Or.inr rfl⟩

theorem processAlbum_inv (sd ed : Instant) (st : ScanState) (a : Album)
    (h : ScanInv st) : ScanInv (unExcept (processAlbum sd ed st a)) := by
  rcases processAlbum_cases sd ed st a with hc | ⟨aid, hid, hnot, hc | hc⟩
  · rw [hc]; exact h
  · rw [hc]; exact ScanInv_seen aid h
  · rw [hc]; exact ScanInv_extend h hnot rfl

theorem processAlbums_inv (sd ed : Instant) :
    ∀ (l : List Album) (st : ScanState), ScanInv st →
      ScanInv (unExcept (processAlbums sd ed st l)) := by
  intro l
  induction l with
  | nil => intro st h; exact h
  | cons a rest ih =>
    intro st h
    have ha := processAlbum_inv sd ed st a h
    unfold processAlbums
    cases hc : processAlbum sd ed st a with
    | error st1 =>
      rw [hc] at ha
      simp only [unExcept] at ha
      dsimp only
      exact ha
    | ok st1 =>
      rw [hc] at ha
      simp only [unExcept] at ha
      dsimp only
      exact ih st1 ha

theorem processGroups_inv (fetch : List Char → List Char → Except Unit (List Album))
    (sd ed : Instant) (aid : List Char) :
    ∀ (gs : List (List Char)) (st : ScanState), ScanInv st →
      ScanInv (processGroups fetch sd ed aid gs st) := by
  intro gs
  induction gs with
  | nil => intro st h; exact h
  | cons g rest ih =>
    intro st h
    unfold processGroups
    cases hfe : fetch aid g with
    | error e =>
      dsimp only
      exact h
    | ok albums =>
      dsimp only
      have ha := processAlbums_inv sd ed albums st h
      cases hc : processAlbums sd ed st albums with
      | error st1 =>
        rw [hc] at ha
        simp only [unExcept] at ha
        dsimp only
        exact ha
      | ok st1 =>
        rw [hc] at ha
        simp only [unExcept] at ha
        dsimp only
        exact ih st1 ha

theorem foldl_processArtist_inv (fetch : List Char → List Char → Except Unit (List Album))
    (sd ed : Instant) :
    ∀ (ids : List (List Char)) (st : ScanState), ScanInv st →
      ScanInv (ids.foldl (processArtist fetch sd ed) st) := by
  intro ids
  induction ids with
  | nil => intro st h; exact h
  | cons a rest ih =>
    intro st h
    rw [List.foldl_cons]
    exact ih _ (processGroups_inv fetch sd ed a include_groups st h)

/-! ### Track-URI assembly (process_user lines 148-161) -/

/-- `needle` is a leading segment of `hay`. -/
def leadsWith : List Char → List Char → Bool
  | [], _ => true
  | _ :: _, [] => false
  | a :: as, b :: bs => a = b && leadsWith as bs

/-- Python `needle in hay` on strings (substring containment). -/
def hasSub (needle : List Char) : List Char → Bool
  | [] => needle.isEmpty
  | c :: rest => leadsWith needle (c :: rest) || hasSub needle rest

/-- The playlist track-URI assembly of `process_user`: each release's uri is
expanded through `get_album_track_uris` when it contains "album" (the
environment `albumTracks` supplies that call's result; its failures already
degrade to `[]` inside it), falsy uris are skipped, and the result is
deduplicated by `list(set(track_uris))` (set order modelled as first-kept
dedup). -/
def buildTrackUris (albumTracks : List Char → List (List Char))
    (releases : List Release) : List (List Char) :=
  (releases.foldl
    (fun (acc : List (List Char)) (r : Release) =>
      match r.uri with
      | none => acc
      | some u =>
        if u = [] then acc
        else if hasSub (str "album") u then acc ++ albumTracks u
        else acc ++ [u]) []).dedup

/-- C8: the scan result has at most one record per album id (dedup across
categories and artists), and the final track-URI list handed to the playlist
step has no duplicates. -/
theorem scan_result_unique (fetch : List Char → List Char → Except Unit (List Album))
    (start_date end_date : Instant) (artist_ids : List (List Char))
    (albumTracks : List Char → List (List Char)) :
    (fetch_releases_for_week fetch start_date end_date artist_ids).Pairwise
        (fun r1 r2 => r1.albumId ≠ r2.albumId) ∧
      (buildTrackUris albumTracks
        (fetch_releases_for_week fetch start_date end_date artist_ids)).Nodup := by
  constructor
  · rw [fetch_releases_flat]
    have hinv : ScanInv (artist_ids.foldl (processArtist fetch start_date end_date) ⟨[], []⟩) :=
      foldl_processArtist_inv fetch start_date end_date artist_ids ⟨[], []⟩
        ⟨List.Pairwise.nil, by intro r hr; cases hr⟩
    have hperm := sortReleasesDesc_perm
      ((artist_ids.foldl (processArtist fetch start_date end_date) ⟨[], []⟩).releases)
    exact (hperm.pairwise_iff (fun hab => Ne.symm hab)).2 hinv.1
  · exact List.nodup_dedup _

/-! ## Batch orchestration (release_radar_cron_job lines 73-100, C9)

`asyncio.gather(*tasks, return_exceptions=True)` yields, in task order, each
user's result or the exception it raised, without one task's exception
cancelling the others; the per-user outcome is the environment
`outcome : UserRec → Except message result`.  The model covers the
result-collection loop `for user, result in zip(users, results)`. -/

structure UserRec where
  email : Option (List Char)
  deriving DecidableEq, Repr

/-- `user.get('email', 'unknown')`. -/
def emailOf (u : UserRec) : List Char := u.email.getD (str "unknown")

def isOkE (e : Except (List Char) Nat) : Bool :=
  match e with
  | .ok _ => true
  | .error _ => false

/-- The success/failure collection of `release_radar_cron_job`: successes
accumulate the user's email, failures the pair of email and `str(result)` of
the exception. -/
def collect_results (outcome : UserRec → Except (List Char) Nat)
    (users : List UserRec) : List (List Char) × List (List Char × List Char) :=
  users.foldl
    (fun (acc : List (List Char) × List (List Char × List Char)) (u : UserRec) =>
      match outcome u with
      | .error e => (acc.1, acc.2 ++ [(emailOf u, e)])
      | .ok _ => (acc.1 ++ [emailOf u], acc.2))
    ([], [])

theorem collect_results_go (outcome : UserRec → Except (List Char) Nat) :
    ∀ (users : List UserRec) (acc : List (List Char) × List (List Char × List Char)),
      users.foldl
          (fun (acc : List (List Char) × List (List Char × List Char)) (u : UserRec) =>
            match outcome u with
            | .error e => (acc.1, acc.2 ++ [(emailOf u, e)])
            | .ok _ => (acc.1 ++ [emailOf u], acc.2))
          acc
        = (acc.1 ++ (users.filter (fun u => isOkE (outcome u))).map emailOf,
            acc.2 ++ users.filterMap (fun u =>
              match outcome u with
              | .error e => some (emailOf u, e)
              | .ok _ => none)) := by
  intro users
  induction users with
  | nil => intro acc; simp
  | cons u rest ih =>
    intro acc
    rw [List.foldl_cons]
    cases ho : outcome u with
    | error e =>
      rw [ih]
      simp [List.filter_cons, List.filterMap_cons, ho, isOkE]
    | ok v =>
      rw [ih]
      simp [List.filter_cons, List.filterMap_cons, ho, isOkE]

theorem collect_lengths (outcome : UserRec → Except (List Char) Nat)
    (users : List UserRec) :
    (users.filter (fun u => isOkE (outcome u))).length
        + (users.filterMap (fun u =>
            match outcome u with
            | .error e => some (emailOf u, e)
            | .ok _ => none)).length
      = users.length := by
  induction users with
  | nil => rfl
  | cons u rest ih =>
    cases ho : outcome u with
    | error e =>
      simp only [List.filter_cons, List.filterMap_cons, ho]
      rw [show isOkE (Except.error e) = false from rfl]
      simp only [Bool.false_eq_true, if_false, List.length_cons]
      omega
    | ok v =>
      simp only [List.filter_cons, List.filterMap_cons, ho]
      rw [show isOkE (Except.ok v) = true from rfl]
      simp only [if_true, List.length_cons]
      omega

/-- C9: the batch result partitions the users: the successes list is exactly
the emails of the users whose scan returned a result, in order; the failures
list is exactly the (email, error message) pairs of the users whose scan
raised, in order; and their lengths sum to the number of users, so no user
is dropped and no user's outcome disturbs another's entry. -/
theorem cron_job_partition (outcome : UserRec → Except (List Char) Nat)
    (users : List UserRec) :
    (collect_results outcome users).1
        = (users.filter (fun u => isOkE (outcome u))).map emailOf ∧
      (collect_results outcome users).2
        = users.filterMap (fun u =>
            match outcome u with
            | .error e => some (emailOf u, e)
            | .ok _ => none) ∧
      (collect_results outcome users).1.length + (collect_results outcome users).2.length
        = users.length := by
  have hp : collect_results outcome users
      = ((users.filter (fun u => isOkE (outcome u))).map emailOf,
          users.filterMap (fun u =>
            match outcome u with
            | .error e => some (emailOf u, e)
            | .ok _ => none)) := by
    unfold collect_results
    rw [collect_results_go outcome users ([], [])]
    simp
  rw [hp]
  refine ⟨rfl, rfl, ?_⟩
  simp only [List.length_map]
  exact collect_lengths outcome users

end Xomify
